import Mathlib

/-!
Verification development for the COVID-19 dashboard script
(`Python/ITI/Visulizations/Covid 19/App.py`).

The script has two data paths:

* a snapshot table (`worldometer_data.csv`) processed by `load_world_data`,
  modelled column-wise (dtype conversion is a per-column operation);
* a time-series table (`full_grouped.csv`) filtered by sidebar selections
  and aggregated (`filtered_data`, `global_data`, `region_deaths`, `top5`,
  and the per-country pie-chart loop), modelled row-wise.

Dates are modelled as naturals (pandas parses them into a totally ordered
timestamp type; only comparisons are used).  Counts are integers.  Float64
cells are modelled as `Option Rat` (`none` is NaN); `astype Int64` succeeds
exactly when every present value is integral, which is pandas behaviour
(non-integral floats raise "cannot safely cast", NaN becomes NA).
String order is code-point lexicographic, as in Python / pandas `groupby`
key sorting; we compare the underlying character lists.
-/

/-- One row of the `full_grouped.csv` time-series table.  The columns the
script touches are Country/Region, WHO Region, Date, Confirmed, Deaths,
Recovered, Active. -/
structure TSRow where
  country : String
  whoRegion : String
  date : Nat
  confirmed : Int
  deaths : Int
  recovered : Int
  active : Int
deriving DecidableEq, Repr

/-- The sidebar filter pass:
`data[(data['WHO Region'].isin(selected_region)) & (data['Date'].between(start_date, end_date))]`
followed by `if selected_country: filtered_data = filtered_data[filtered_data['Country/Region'].isin(selected_country)]`.
`Series.between` is inclusive on both endpoints; an empty country list is
falsy in Python, so it imposes no restriction. -/
def filtered_data (data : List TSRow) (selected_region selected_country : List String)
    (start_date end_date : Nat) : List TSRow :=
  let fd := data.filter (fun r =>
    selected_region.contains r.whoRegion &&
      (decide (start_date ≤ r.date) && decide (r.date ≤ end_date)))
  if selected_country.isEmpty then fd
  else fd.filter (fun r => selected_country.contains r.country)

/-- Sum of a numeric column over a list of rows. -/
def sumBy (f : TSRow → Int) (l : List TSRow) : Int := (l.map f).sum

/-- The distinct dates of a table in ascending order: the group keys
produced by `groupby('Date')` (pandas sorts group keys ascending). -/
def datesOf (fd : List TSRow) : List Nat :=
  List.insertionSort (· ≤ ·) (fd.map (fun r => r.date)).dedup

/-- `filtered_data.groupby('Date')[['Confirmed', 'Deaths', 'Recovered']].sum().reset_index()`:
for each date present, in ascending date order, the sums of the three
columns over the rows carrying that date. -/
def global_data (fd : List TSRow) : List (Nat × Int × Int × Int) :=
  (datesOf fd).map (fun d =>
    let rows := fd.filter (fun r => r.date == d)
    (d, sumBy (fun r => r.confirmed) rows,
        sumBy (fun r => r.deaths) rows,
        sumBy (fun r => r.recovered) rows))

/-- The distinct WHO regions of a table: group keys of `groupby('WHO Region')`,
sorted ascending by code-point order on the name. -/
def regionsOf (fd : List TSRow) : List String :=
  List.insertionSort (fun a b : String => a.data ≤ b.data) (fd.map (fun r => r.whoRegion)).dedup

/-- `filtered_data.groupby('WHO Region').agg({'Deaths': 'mean'}).reset_index().sort_values('Deaths', ascending=False)`:
per-region mean of Deaths, sorted descending by the mean. -/
def region_deaths (fd : List TSRow) : List (String × Rat) :=
  List.insertionSort (fun x y : String × Rat => y.2 ≤ x.2)
    ((regionsOf fd).map (fun g =>
      let rows := fd.filter (fun r => r.whoRegion == g)
      (g, (sumBy (fun r => r.deaths) rows : Rat) / (rows.length : Rat))))

/-- Maximum of a list of integers (`'max'` aggregation); groups produced by
`groupby` are nonempty, so the `[]` case is never reached by the script. -/
def listMax : List Int → Int
  | [] => 0
  | x :: xs => xs.foldl max x

/-- The distinct countries of a table: group keys of `groupby('Country/Region')`,
sorted ascending by code-point order on the name. -/
def countriesOf (fd : List TSRow) : List String :=
  List.insertionSort (fun a b : String => a.data ≤ b.data) (fd.map (fun r => r.country)).dedup

/-- Per-country maximum of the Confirmed column within a table. -/
def mcOf (fd : List TSRow) (c : String) : Int :=
  listMax ((fd.filter (fun r => r.country == c)).map (fun r => r.confirmed))

/-- The table produced by `groupby('Country/Region').agg({'Confirmed': 'max'})`:
group keys in ascending name order, each with its Confirmed maximum. -/
def confGroups (fd : List TSRow) : List (String × Int) :=
  (countriesOf fd).map (fun c => (c, mcOf fd c))

/-- `sort_values('Confirmed', ascending=False).head(5).index.tolist()`:
stable descending sort of the grouped table by the Confirmed maximum
(`orderedInsert` with this relation inserts an element before the first
strictly smaller entry, keeping earlier entries first on ties), then the
first five group keys. -/
def top5 (fd : List TSRow) : List String :=
  ((List.insertionSort (fun x y : String × Int => y.2 ≤ x.2) (confGroups fd)).take 5).map
    (fun p => p.1)

/-- `subset.iloc[-1]`: the positionally last row of a data frame, `none` when
the frame is empty (in the script that case is guarded by `subset.empty`). -/
def last_row (subset : List TSRow) : Option TSRow := subset.getLast?

/-- The pie-chart loop: for each country of the given list, filter the rows
for that country; an empty subset is skipped (`continue`), otherwise the
Active/Recovered/Deaths values of the positionally last row feed the chart. -/
def countryBreakdowns (countries : List String) (fd : List TSRow) :
    List (String × Int × Int × Int) :=
  countries.filterMap (fun c =>
    match last_row (fd.filter (fun r => r.country == c)) with
    | none => none
    | some r => some (c, r.active, r.recovered, r.deaths))

/-- The three sidebar values feeding the filter pass: region multiselect,
country multiselect, and the raw value of `st.date_input` (a tuple that has
fewer than two entries while the user is mid-selection). -/
structure Selection where
  regions : List String
  countries : List String
  dateRange : List Nat
deriving DecidableEq, Repr

/-- `start_date = pd.Timestamp(date_range[0])` and
`end_date = pd.Timestamp(date_range[1])`: positional indexing raises
`IndexError` (modelled as `none`) when the tuple is shorter than two. -/
def dateEndpoints (date_range : List Nat) : Option (Nat × Nat) :=
  match date_range[0]?, date_range[1]? with
  | some s, some e => some (s, e)
  | _, _ => none

/-- One render pass of the grouped-data page: read the two endpoints (an
out-of-range index aborts the pass before any filtering), then derive the
three aggregates from a fresh filtered view.  The second component is the
base table afterwards: every pandas operation involved (boolean indexing,
`groupby`, `sum`, `mean`, `max`, `sort_values`, `reset_index`) returns a new
frame, so the base table is returned unchanged. -/
def renderStep (data : List TSRow) (sel : Selection) :
    Option (List (Nat × Int × Int × Int) × List (String × Rat) × List String) × List TSRow :=
  match dateEndpoints sel.dateRange with
  | none => (none, data)
  | some (s, e) =>
    let fd := filtered_data data sel.regions sel.countries s e
    (some (global_data fd, region_deaths fd, top5 fd), data)

/-- The base table after a sequence of render passes. -/
def renderSeq (data : List TSRow) (sels : List Selection) : List TSRow :=
  sels.foldl (fun d sel => (renderStep d sel).2) data

/-- A column of the `worldometer_data.csv` snapshot table, tagged with its
dtype.  Float64 cells are `Option Rat` (`none` is NaN), Int64 cells are
`Option Int` (`none` is NA), object cells are `Option String`. -/
inductive ColData where
  | floatCol (vals : List (Option Rat))
  | intCol (vals : List (Option Int))
  | strCol (vals : List (Option String))
deriving DecidableEq, Repr

/-- The snapshot data frame: named columns in frame order. -/
abbrev WTable := List (String × ColData)

/-- Whether a column has dtype float64. -/
def isFloatCol : ColData → Bool
  | ColData.floatCol _ => true
  | _ => false

/-- `df.select_dtypes(include=['float64']).columns`: the names of the
float64 columns, in frame order. -/
def floatColNames (df : WTable) : List String :=
  df.filterMap (fun p => if isFloatCol p.2 then some p.1 else none)

/-- The three per-million-population columns excluded from conversion. -/
def perMillionNames : List String :=
  ["Tests/1M pop", "Deaths/1M pop", "Tot Cases/1M pop"]

/-- `Index.drop(labels)`: removes the labels from the index, raising
`KeyError` (modelled as `none`) when any label is absent. -/
def indexDrop (idx labels : List String) : Option (List String) :=
  if labels.all (fun l => idx.contains l) then
    some (idx.filter (fun n => !labels.contains n))
  else none

/-- `Series.astype('Int64')` on a float64 column: succeeds exactly when
every present value is integral (NaN becomes NA); a non-integral value
raises "cannot safely cast" (modelled as `none`). -/
def tryAstypeInt (vs : List (Option Rat)) : Option (List (Option Int)) :=
  if vs.all (fun v => v.all (fun q => q.den == 1)) then
    some (vs.map (fun v => v.map (fun q => q.num)))
  else none

/-- `try: df[col] = df[col].astype('Int64') except: ...` for a single
column: the converted column on success, the column unchanged on failure. -/
def astypeCol : ColData → ColData
  | ColData.floatCol vs =>
    match tryAstypeInt vs with
    | some iv => ColData.intCol iv
    | none => ColData.floatCol vs
  | c => c

/-- The conversion loop `for col in float_cols`, applied label-wise. -/
def convertCols (df : WTable) (float_cols : List String) : WTable :=
  df.map (fun p => if float_cols.contains p.1 then (p.1, astypeCol p.2) else p)

/-- `df[name]`: label lookup of a column. -/
def lookupCol (df : WTable) (name : String) : Option ColData :=
  (df.find? (fun p => p.1 == name)).map (fun p => p.2)

/-- Keep the values at the positions where the boolean mask holds. -/
def maskFilter {α : Type} (keep : List Bool) (vs : List α) : List α :=
  (keep.zip vs).filterMap (fun p => if p.1 then some p.2 else none)

/-- Row selection applied to a single column. -/
def colFilter (keep : List Bool) : ColData → ColData
  | ColData.floatCol vs => ColData.floatCol (maskFilter keep vs)
  | ColData.intCol vs => ColData.intCol (maskFilter keep vs)
  | ColData.strCol vs => ColData.strCol (maskFilter keep vs)

/-- `df[df['Country/Region'] != 'Diamond Princess']`: boolean-mask row
selection (which copies the frame).  A NaN country compares unequal and is
kept, as in pandas.  A missing `Country/Region` label raises `KeyError`
(modelled as `none`; the column holds strings in the dataset, so the
present-but-non-string case is collapsed into the same failure). -/
def dropDiamond (df : WTable) : Option WTable :=
  match lookupCol df "Country/Region" with
  | some (ColData.strCol cs) =>
    let keep := cs.map (fun v => v != some "Diamond Princess")
    some (df.map (fun p => (p.1, colFilter keep p.2)))
  | _ => none

/-- `mask = world_data['WHO Region'].isna();`
`world_data.loc[mask, 'WHO Region'] = world_data.loc[mask, 'Continent']`:
missing WHO Region cells take the Continent value of the same row.  A
missing `WHO Region` or `Continent` label raises `KeyError` (modelled as
`none`, as in `dropDiamond`). -/
def backfillWHO (df : WTable) : Option WTable :=
  match lookupCol df "WHO Region", lookupCol df "Continent" with
  | some (ColData.strCol ws), some (ColData.strCol cs) =>
    let newWho := List.zipWith (fun w c =>
      match w with
      | none => c
      | some s => some s) ws cs
    some (df.map (fun p => if p.1 == "WHO Region" then (p.1, ColData.strCol newWho) else p))
  | _, _ => none

/-- `world_data.fillna(0, inplace=True)` used as an expression: with
`inplace=True` pandas mutates its receiver and returns `None`, so the
assignment `world_data = world_data.fillna(0, inplace=True)` stores `None`. -/
def fillna_inplace (_ : WTable) : Option WTable := none

/-- `load_world_data` after `pd.read_csv`:
selects the float64 columns, drops the three per-million labels from that
index (`Index.drop` raises `KeyError` if a label is missing), converts each
remaining float column to Int64 where possible, then computes the cleaned
`world_data` frame (outlier row dropped, WHO Region backfilled; either step
raises `KeyError`, aborting the load, when its column is missing) — which
the `fillna(..., inplace=True)` assignment overwrites with `None` — and
finally returns `df`, not `world_data`. -/
def load_world_data (df0 : WTable) : Option WTable :=
  match indexDrop (floatColNames df0) perMillionNames with
  | none => none
  | some float_cols =>
    let df := convertCols df0 float_cols
    match dropDiamond df with
    | none => none
    | some world_data =>
      match backfillWHO world_data with
      | none => none
      | some world_data2 =>
        let _world_data : Option WTable := fillna_inplace world_data2
        some df

/-- Whether the snapshot table still contains a Diamond Princess row. -/
def hasDiamondRow (df : WTable) : Bool :=
  match lookupCol df "Country/Region" with
  | some (ColData.strCol cs) => cs.contains (some "Diamond Princess")
  | _ => false

/-- Pairwise relation produced by the stable descending sort of the grouped
Confirmed maxima: an earlier entry has a strictly larger value, or an equal
value and a smaller (earlier in `groupby` key order) country name. -/
def RdRel (a b : String × Int) : Prop :=
  b.2 < a.2 ∨ (a.2 = b.2 ∧ a.1.data < b.1.data)

/-- A snapshot table with a Diamond Princess row and missing WHO regions:
the input for the C1 evaluation. -/
def w1df : WTable :=
  [("Country/Region", ColData.strCol [some "USA", some "Diamond Princess", some "France"]),
   ("Continent", ColData.strCol [some "North America", some "Asia", some "Europe"]),
   ("WHO Region", ColData.strCol [some "Americas", none, none]),
   ("TotalCases", ColData.floatCol [some 100, none, some 50]),
   ("Tests/1M pop", ColData.floatCol [some 1, some 2, none]),
   ("Deaths/1M pop", ColData.floatCol [some 1, some 2, some 3]),
   ("Tot Cases/1M pop", ColData.floatCol [some 4, some 5, some 6])]

/-- What `load_world_data` actually returns on `w1df`: only the Int64
conversion applied, none of the row cleaning. -/
def w1out : WTable :=
  [("Country/Region", ColData.strCol [some "USA", some "Diamond Princess", some "France"]),
   ("Continent", ColData.strCol [some "North America", some "Asia", some "Europe"]),
   ("WHO Region", ColData.strCol [some "Americas", none, none]),
   ("TotalCases", ColData.intCol [some 100, none, some 50]),
   ("Tests/1M pop", ColData.floatCol [some 1, some 2, none]),
   ("Deaths/1M pop", ColData.floatCol [some 1, some 2, some 3]),
   ("Tot Cases/1M pop", ColData.floatCol [some 4, some 5, some 6])]

/-- The cleaned frame (`backfillWHO` after `dropDiamond`) that
`load_world_data` computes from `w1df` and then discards. -/
def w1clean : WTable :=
  [("Country/Region", ColData.strCol [some "USA", some "France"]),
   ("Continent", ColData.strCol [some "North America", some "Europe"]),
   ("WHO Region", ColData.strCol [some "Americas", some "Europe"]),
   ("TotalCases", ColData.intCol [some 100, some 50]),
   ("Tests/1M pop", ColData.floatCol [some 1, none]),
   ("Deaths/1M pop", ColData.floatCol [some 1, some 3]),
   ("Tot Cases/1M pop", ColData.floatCol [some 4, some 6])]

/-- A snapshot table shaped like the dataset (the three string columns and
the three per-million float columns all present) with one convertible float
column (`TotalDeaths`) and one non-convertible float column (`Serious`,
holding 7/2). -/
def w7df : WTable :=
  [("Country/Region", ColData.strCol [some "USA", some "France"]),
   ("Continent", ColData.strCol [some "North America", some "Europe"]),
   ("WHO Region", ColData.strCol [some "Americas", some "Europe"]),
   ("Tests/1M pop", ColData.floatCol [some 1, some 2]),
   ("Deaths/1M pop", ColData.floatCol [some 1, some 2]),
   ("Tot Cases/1M pop", ColData.floatCol [some 1, some 2]),
   ("TotalDeaths", ColData.floatCol [some 5, none]),
   ("Serious", ColData.floatCol [some ⟨7, 2, by decide, by decide⟩, some 1])]

/-- Two time-series rows used by the C2 witness. -/
def w2data : List TSRow :=
  [⟨"Italy", "Europe", 1, 100, 5, 10, 85⟩,
   ⟨"Egypt", "Eastern Mediterranean", 3, 50, 2, 4, 44⟩]

/-- Two countries with equal Confirmed maxima whose original row order
("Bland" first) differs from `groupby` key order ("Aland" first). -/
def c3fd : List TSRow :=
  [⟨"Bland", "Europe", 1, 10, 0, 0, 0⟩,
   ⟨"Aland", "Europe", 1, 10, 0, 0, 0⟩]

/-- The spec's Italy example: confirmed 100 on 2020-03-01 and 150 on
2020-03-02 (dates written as yyyymmdd numerals). -/
def italy2 : List TSRow :=
  [⟨"Italy", "Europe", 20200301, 100, 5, 10, 85⟩,
   ⟨"Italy", "Europe", 20200302, 150, 7, 20, 123⟩]

/-- Two Italy rows in ascending date order, for the C5 witness. -/
def w5fd : List TSRow :=
  [⟨"Italy", "Europe", 1, 100, 5, 10, 85⟩,
   ⟨"Italy", "Europe", 2, 150, 7, 20, 123⟩]

/-- A single-row table for the C9 witness: no rows for "Ghostland". -/
def w9fd : List TSRow :=
  [⟨"Italy", "Europe", 1, 10, 1, 2, 3⟩]

/-- A selection whose date-range tuple has a single entry (C10 witness). -/
def w10sel : Selection :=
  ⟨["Europe"], [], [20200301]⟩

/-! ## Helper lemmas -/

/-- The state component of a render pass is the base table unchanged. -/
theorem renderStep_snd (data : List TSRow) (sel : Selection) :
    (renderStep data sel).2 = data := by
  unfold renderStep
  cases h : dateEndpoints sel.dateRange with
  | none => rfl
  | some p => cases p; rfl

/-! ## Claim C1 -/

/-- Claim C1: the claim fails on the code.  `load_world_data` computes the
cleaned `world_data` frame but returns `df`: on a table with a Diamond
Princess row and missing WHO regions, the returned table still contains the
Diamond Princess row, its WHO Region column is not backfilled, and its
missing values are not zero-filled (only the Int64 conversion happened).
The discarded intermediate frame `w1clean` (the result of `backfillWHO`
after `dropDiamond`) does satisfy the drop and backfill the claim
describes, showing the claim states the code's intent. -/
theorem load_world_data_returns_uncleaned :
    load_world_data w1df = some w1out ∧
    hasDiamondRow w1out = true ∧
    lookupCol w1out "WHO Region" = some (ColData.strCol [some "Americas", none, none]) ∧
    lookupCol w1out "TotalCases" = some (ColData.intCol [some 100, none, some 50]) ∧
    (dropDiamond w1out).bind backfillWHO = some w1clean ∧
    hasDiamondRow w1clean = false ∧
    lookupCol w1clean "WHO Region" =
      some (ColData.strCol [some "Americas", some "Europe"]) := by
  decide

/-! ## Claim C7 -/

/-- Label lookup through a name-preserving column transformation. -/
theorem lookupCol_mapCols (g : ColData → ColData) (df : WTable) (name : String) :
    lookupCol (df.map (fun p => (p.1, g p.2))) name = (lookupCol df name).map g := by
  induction df with
  | nil => rfl
  | cons p ps ih =>
    unfold lookupCol at ih ⊢
    rw [List.map_cons]
    cases hp : (p.1 == name) with
    | true => simp [List.find?_cons, hp]
    | false =>
      simp only [List.find?_cons, hp]
      exact ih

/-- Label lookup through the conversion loop: the looked-up column is
converted exactly when its label is among `float_cols`. -/
theorem lookupCol_convertCols (fc : List String) (df : WTable) (name : String) :
    lookupCol (convertCols df fc) name =
      (lookupCol df name).map (fun c => if fc.contains name then astypeCol c else c) := by
  induction df with
  | nil => rfl
  | cons p ps ih =>
    unfold convertCols lookupCol at ih ⊢
    rw [List.map_cons]
    by_cases hp : p.1 = name
    · subst hp
      cases hfc : fc.contains p.1 with
      | true => simp [List.find?_cons, hfc]
      | false => simp [List.find?_cons, hfc]
    · have hpb : (p.1 == name) = false := by simp [hp]
      cases hfc : fc.contains p.1 with
      | true =>
        simp only [hfc, if_true, List.find?_cons, hpb]
        exact ih
      | false =>
        rw [if_neg Bool.false_ne_true]
        simp only [List.find?_cons, hpb]
        exact ih

/-- When the three string columns the cleanup steps index are present (as
string columns), the load runs to completion and returns the converted
frame. -/
theorem load_world_data_eq (df : WTable) (fc : List String)
    (hdrop : indexDrop (floatColNames df) perMillionNames = some fc)
    (cs ws ks : List (Option String))
    (h1 : lookupCol (convertCols df fc) "Country/Region" = some (ColData.strCol cs))
    (h2 : lookupCol (convertCols df fc) "WHO Region" = some (ColData.strCol ws))
    (h3 : lookupCol (convertCols df fc) "Continent" = some (ColData.strCol ks)) :
    load_world_data df = some (convertCols df fc) := by
  have hdd : dropDiamond (convertCols df fc) = some ((convertCols df fc).map
      (fun p => (p.1, colFilter (cs.map (fun v => v != some "Diamond Princess")) p.2))) := by
    unfold dropDiamond
    rw [h1]
  have h2b : lookupCol ((convertCols df fc).map
      (fun p => (p.1, colFilter (cs.map (fun v => v != some "Diamond Princess")) p.2))) "WHO Region" =
      some (ColData.strCol (maskFilter (cs.map (fun v => v != some "Diamond Princess")) ws)) := by
    rw [lookupCol_mapCols, h2]
    rfl
  have h3b : lookupCol ((convertCols df fc).map
      (fun p => (p.1, colFilter (cs.map (fun v => v != some "Diamond Princess")) p.2))) "Continent" =
      some (ColData.strCol (maskFilter (cs.map (fun v => v != some "Diamond Princess")) ks)) := by
    rw [lookupCol_mapCols, h3]
    rfl
  have hbf : ∃ wb, backfillWHO ((convertCols df fc).map
      (fun p => (p.1, colFilter (cs.map (fun v => v != some "Diamond Princess")) p.2))) = some wb := by
    unfold backfillWHO
    rw [h2b, h3b]
    exact ⟨_, rfl⟩
  obtain ⟨wb, hwb⟩ := hbf
  simp only [load_world_data, hdrop, hdd, hwb]

/-- Claim C7: provided the three per-million labels are float64 columns and
the three string columns the function indexes are present (as in the
dataset; otherwise `Index.drop` or the row-cleaning steps raise `KeyError`
and the load fails), the load succeeds and every other float64 column is
converted to Int64 when the conversion succeeds and left unconverted
(unchanged) when it fails. -/
theorem load_converts_float_columns (df : WTable)
    (h : ∀ n ∈ perMillionNames, n ∈ floatColNames df)
    (hcr : ∃ cs, lookupCol df "Country/Region" = some (ColData.strCol cs))
    (hwr : ∃ ws, lookupCol df "WHO Region" = some (ColData.strCol ws))
    (hct : ∃ ks, lookupCol df "Continent" = some (ColData.strCol ks)) :
    ∃ out, load_world_data df = some out ∧
      ∀ name vals, (name, ColData.floatCol vals) ∈ df → name ∉ perMillionNames →
        (name, match tryAstypeInt vals with
               | some iv => ColData.intCol iv
               | none => ColData.floatCol vals) ∈ out := by
  obtain ⟨cs, hcs⟩ := hcr
  obtain ⟨ws, hws⟩ := hwr
  obtain ⟨ks, hks⟩ := hct
  have hdrop : indexDrop (floatColNames df) perMillionNames =
      some ((floatColNames df).filter (fun n => !perMillionNames.contains n)) := by
    unfold indexDrop
    rw [if_pos]
    rw [List.all_eq_true]
    intro l hl
    simpa using h l hl
  have hsurv : ∀ (nm : String) (vs : List (Option String)),
      lookupCol df nm = some (ColData.strCol vs) →
      lookupCol (convertCols df ((floatColNames df).filter
        (fun n => !perMillionNames.contains n))) nm = some (ColData.strCol vs) := by
    intro nm vs hv
    rw [lookupCol_convertCols, hv]
    cases hfc : ((floatColNames df).filter (fun n => !perMillionNames.contains n)).contains nm with
    | true => simp [hfc, astypeCol]
    | false => simp [hfc]
  have hload : load_world_data df =
      some (convertCols df ((floatColNames df).filter (fun n => !perMillionNames.contains n))) :=
    load_world_data_eq df _ hdrop cs ws ks (hsurv _ _ hcs) (hsurv _ _ hws) (hsurv _ _ hks)
  refine ⟨convertCols df ((floatColNames df).filter (fun n => !perMillionNames.contains n)), hload, ?_⟩
  intro name vals hmem hnot
  have hfn : name ∈ floatColNames df :=
    List.mem_filterMap.mpr ⟨(name, ColData.floatCol vals), hmem, by simp [isFloatCol]⟩
  have hin : name ∈ (floatColNames df).filter (fun n => !perMillionNames.contains n) :=
    List.mem_filter.mpr ⟨hfn, by simpa using hnot⟩
  refine List.mem_map.mpr ⟨(name, ColData.floatCol vals), hmem, ?_⟩
  have hc : ((floatColNames df).filter (fun n => !perMillionNames.contains n)).contains name = true := by
    simpa using hin
  simp only [convertCols, hc, if_pos]
  cases htry : tryAstypeInt vals with
  | none => simp [astypeCol, htry]
  | some iv => simp [astypeCol, htry]

/-- Witness for C7 at a concrete table shaped like the dataset: all
hypotheses hold and the conversion behaviour follows. -/
theorem load_converts_float_columns_witness :
    (∀ n ∈ perMillionNames, n ∈ floatColNames w7df) ∧
    (∃ cs, lookupCol w7df "Country/Region" = some (ColData.strCol cs)) ∧
    (∃ ws, lookupCol w7df "WHO Region" = some (ColData.strCol ws)) ∧
    (∃ ks, lookupCol w7df "Continent" = some (ColData.strCol ks)) ∧
    (∃ out, load_world_data w7df = some out ∧
      ∀ name vals, (name, ColData.floatCol vals) ∈ w7df → name ∉ perMillionNames →
        (name, match tryAstypeInt vals with
               | some iv => ColData.intCol iv
               | none => ColData.floatCol vals) ∈ out) :=
  ⟨by decide,
   ⟨[some "USA", some "France"], by decide⟩,
   ⟨[some "Americas", some "Europe"], by decide⟩,
   ⟨[some "North America", some "Europe"], by decide⟩,
   load_converts_float_columns w7df (by decide)
     ⟨[some "USA", some "France"], by decide⟩
     ⟨[some "Americas", some "Europe"], by decide⟩
     ⟨[some "North America", some "Europe"], by decide⟩⟩

/-! ## Claim C10 -/

/-- Claim C10: a date-range tuple with fewer than two entries makes the
endpoint extraction fail with an out-of-bounds index, and the render pass
aborts before producing any filtered view or aggregate. -/
theorem short_date_range_aborts (data : List TSRow) (sel : Selection)
    (h : sel.dateRange.length < 2) :
    dateEndpoints sel.dateRange = none ∧ (renderStep data sel).1 = none := by
  have h1 : sel.dateRange[1]? = none := List.getElem?_eq_none (Nat.lt_succ_iff.mp h)
  have he : dateEndpoints sel.dateRange = none := by
    unfold dateEndpoints
    rw [h1]
    cases sel.dateRange[0]? <;> rfl
  refine ⟨he, ?_⟩
  unfold renderStep
  rw [he]

/-- Witness for C10: a single-date tuple. -/
theorem short_date_range_aborts_witness :
    w10sel.dateRange.length < 2 ∧ (renderStep [] w10sel).1 = none :=
  ⟨by decide, (short_date_range_aborts [] w10sel (by decide)).2⟩

/-! ## Claim C6 -/

/-- Claim C6: an empty region selection produces an empty filtered table,
and the three downstream aggregates are all empty; every function involved
is total, so no error is raised. -/
theorem empty_region_selection (data : List TSRow) (C : List String) (s e : Nat) :
    filtered_data data [] C s e = [] ∧
    global_data (filtered_data data [] C s e) = [] ∧
    region_deaths (filtered_data data [] C s e) = [] ∧
    top5 (filtered_data data [] C s e) = [] := by
  have hf : filtered_data data [] C s e = [] := by
    unfold filtered_data
    have h0 : data.filter (fun r =>
        ([] : List String).contains r.whoRegion &&
          (decide (s ≤ r.date) && decide (r.date ≤ e))) = [] := by
      rw [List.filter_eq_nil_iff]
      intro a _
      simp
    rw [h0]
    cases C.isEmpty <;> simp
  rw [hf]
  exact ⟨rfl, rfl, rfl, rfl⟩

/-! ## Claim C8 -/

/-- Claim C8: no render pass mutates the base table (each pandas operation
involved returns a fresh frame): after any sequence of filter selections the
base table equals its state after load, and recomputing the aggregates of
the same selection — whether after other passes or immediately again —
yields identical results. -/
theorem render_pass_no_mutation (data : List TSRow) (sels : List Selection) (sel : Selection) :
    renderSeq data sels = data ∧
    (renderStep (renderSeq data sels) sel).1 = (renderStep data sel).1 ∧
    (renderStep (renderStep data sel).2 sel).1 = (renderStep data sel).1 := by
  have hseq : ∀ (ss : List Selection) (d : List TSRow), renderSeq d ss = d := by
    intro ss
    induction ss with
    | nil => intro d; rfl
    | cons a as ih =>
      intro d
      unfold renderSeq at ih ⊢
      rw [List.foldl_cons, renderStep_snd]
      exact ih d
  refine ⟨hseq sels data, ?_, ?_⟩
  · rw [hseq sels data]
  · rw [renderStep_snd]

/-! ## Claim C2 -/

/-- Claim C2: for any region selection, country selection and date range
with start ≤ end, the filtered view is exactly the rows of the base table
whose WHO Region is selected and whose date lies in the inclusive range,
restricted to the selected countries only when that selection is nonempty. -/
theorem filtered_data_exact (data : List TSRow) (R C : List String) (s e : Nat)
    (h : s ≤ e) :
    filtered_data data R C s e = data.filter (fun r =>
      R.contains r.whoRegion && (decide (s ≤ r.date) && decide (r.date ≤ e)) &&
      (C.isEmpty || C.contains r.country)) := by
  unfold filtered_data
  by_cases hC : C.isEmpty
  · rw [if_pos hC]
    apply List.filter_congr
    intro x _
    simp [hC]
  · rw [if_neg hC]
    rw [List.filter_filter]
    apply List.filter_congr
    intro x _
    rw [Bool.eq_false_iff.mpr hC]
    rw [Bool.false_or]
    rw [Bool.and_comm]

/-- Witness for C2 at a concrete table and range. -/
theorem filtered_data_exact_witness :
    (0 : Nat) ≤ 5 ∧
    filtered_data w2data ["Europe"] [] 0 5 = w2data.filter (fun r =>
      (["Europe"] : List String).contains r.whoRegion &&
        (decide (0 ≤ r.date) && decide (r.date ≤ 5)) &&
      (([] : List String).isEmpty || ([] : List String).contains r.country)) :=
  ⟨by decide, filtered_data_exact w2data ["Europe"] [] 0 5 (by decide)⟩

/-! ## Claim C9 -/

/-- Claim C9: in the pie-chart loop, a listed country with no rows in the
filtered view is skipped without error, and every listed country that does
have rows still gets its breakdown. -/
theorem breakdown_skips_empty (countries : List String) (fd : List TSRow) (c : String)
    (hc : c ∈ countries) (hempty : fd.filter (fun r => r.country == c) = []) :
    (∀ x ∈ countryBreakdowns countries fd, x.1 ≠ c) ∧
    ∀ c2 ∈ countries, fd.filter (fun r => r.country == c2) ≠ [] →
      ∃ r, last_row (fd.filter (fun r => r.country == c2)) = some r ∧
        (c2, r.active, r.recovered, r.deaths) ∈ countryBreakdowns countries fd := by
  constructor
  · intro x hx
    rcases List.mem_filterMap.mp hx with ⟨c0, _, hf⟩
    cases hlast : last_row (fd.filter (fun r => r.country == c0)) with
    | none => rw [hlast] at hf; simp at hf
    | some r =>
      rw [hlast] at hf
      simp only [Option.some.injEq] at hf
      intro hx1
      rw [← hf] at hx1
      simp only [] at hx1
      rw [hx1] at hlast
      rw [hempty] at hlast
      simp [last_row] at hlast
  · intro c2 hc2 hne
    cases hlast : last_row (fd.filter (fun r => r.country == c2)) with
    | none =>
      exfalso
      exact hne (List.getLast?_eq_none_iff.mp hlast)
    | some r =>
      refine ⟨r, rfl, ?_⟩
      refine List.mem_filterMap.mpr ⟨c2, hc2, ?_⟩
      rw [hlast]

/-- Witness for C9: "Ghostland" is listed but has no rows; "Italy" still
gets a breakdown. -/
theorem breakdown_skips_empty_witness :
    "Ghostland" ∈ ["Ghostland", "Italy"] ∧
    w9fd.filter (fun r => r.country == "Ghostland") = [] ∧
    ((∀ x ∈ countryBreakdowns ["Ghostland", "Italy"] w9fd, x.1 ≠ "Ghostland") ∧
     ∀ c2 ∈ ["Ghostland", "Italy"], w9fd.filter (fun r => r.country == c2) ≠ [] →
       ∃ r, last_row (w9fd.filter (fun r => r.country == c2)) = some r ∧
         (c2, r.active, r.recovered, r.deaths) ∈ countryBreakdowns ["Ghostland", "Italy"] w9fd) :=
  ⟨by decide, by decide,
    breakdown_skips_empty ["Ghostland", "Italy"] w9fd "Ghostland" (by decide) (by decide)⟩

/-! ## Claim C5 -/

/-- The last element of a list (when it exists) is a member. -/
theorem mem_of_getLast_eq {α : Type} {l : List α} {a : α}
    (h : l.getLast? = some a) : a ∈ l := by
  induction l with
  | nil => simp at h
  | cons x xs ih =>
    cases xs with
    | nil =>
      rw [List.getLast?_singleton] at h
      simp only [Option.some.injEq] at h
      simp [h]
    | cons y ys =>
      rw [List.getLast?_cons_cons] at h
      exact List.mem_cons_of_mem x (ih h)

/-- In a list whose rows are pairwise in nondecreasing date order, the
positionally last row has the maximal date. -/
theorem pairwise_date_getLast :
    ∀ {l : List TSRow} {a : TSRow},
      l.Pairwise (fun x y => x.date ≤ y.date) → l.getLast? = some a →
      ∀ x ∈ l, x.date ≤ a.date := by
  intro l
  induction l with
  | nil => intro a _ h; simp at h
  | cons b bs ih =>
    intro a hp h x hx
    cases bs with
    | nil =>
      rw [List.getLast?_singleton] at h
      simp only [Option.some.injEq] at h
      simp only [List.mem_singleton] at hx
      rw [hx, h]
    | cons y ys =>
      rw [List.getLast?_cons_cons] at h
      rcases List.mem_cons.mp hx with hxb | hx2
      · rw [hxb]
        exact List.rel_of_pairwise_cons hp (mem_of_getLast_eq h)
      · exact ih (List.pairwise_cons.mp hp).2 h x hx2

/-- Claim C5: when the filtered view is in nondecreasing date order (as the
dataset is distributed), every breakdown produced for a top-5 country comes
from the last row by date order of that country within the filtered view:
a row of the country subset whose date bounds every other row of it. -/
theorem top5_breakdown_uses_latest (fd : List TSRow)
    (hsorted : fd.Pairwise (fun a b => a.date ≤ b.date)) :
    ∀ c a rec d, (c, a, rec, d) ∈ countryBreakdowns (top5 fd) fd →
      ∃ r, r ∈ fd.filter (fun x => x.country == c) ∧
        (∀ x ∈ fd.filter (fun x2 => x2.country == c), x.date ≤ r.date) ∧
        a = r.active ∧ rec = r.recovered ∧ d = r.deaths := by
  intro c a rec d hmem
  rcases List.mem_filterMap.mp hmem with ⟨c0, _, hf⟩
  cases hlast : last_row (fd.filter (fun x => x.country == c0)) with
  | none => rw [hlast] at hf; simp at hf
  | some r =>
    rw [hlast] at hf
    simp only [Option.some.injEq, Prod.mk.injEq] at hf
    obtain ⟨hfc, hfa, hfr, hfd⟩ := hf
    rw [← hfc]
    refine ⟨r, mem_of_getLast_eq hlast, ?_, hfa.symm, hfr.symm, hfd.symm⟩
    exact pairwise_date_getLast (hsorted.filter _) hlast

/-- Witness for C5 at a concrete date-sorted table. -/
theorem top5_breakdown_uses_latest_witness :
    w5fd.Pairwise (fun a b => a.date ≤ b.date) ∧
    (∀ c a rec d, (c, a, rec, d) ∈ countryBreakdowns (top5 w5fd) w5fd →
      ∃ r, r ∈ w5fd.filter (fun x => x.country == c) ∧
        (∀ x ∈ w5fd.filter (fun x2 => x2.country == c), x.date ≤ r.date) ∧
        a = r.active ∧ rec = r.recovered ∧ d = r.deaths) :=
  ⟨by decide, top5_breakdown_uses_latest w5fd (by decide)⟩

/-! ## Claim C4 -/

/-- The `groupby('Date')` keys are strictly increasing. -/
theorem datesOf_pairwise_lt (fd : List TSRow) : (datesOf fd).Pairwise (· < ·) := by
  unfold datesOf
  have hs := List.sorted_insertionSort (α := Nat) (· ≤ ·) (fd.map (fun r => r.date)).dedup
  have hn : (List.insertionSort (α := Nat) (· ≤ ·) (fd.map (fun r => r.date)).dedup).Nodup :=
    ((List.perm_insertionSort (· ≤ ·) (fd.map (fun r => r.date)).dedup).nodup_iff).mpr
      (List.nodup_dedup (fd.map (fun r => r.date)))
  exact (List.Pairwise.and hs hn).imp (fun h => lt_of_le_of_ne h.1 h.2)

/-- A date is a `groupby` key exactly when a row carries it. -/
theorem mem_datesOf (fd : List TSRow) (d : Nat) :
    d ∈ datesOf fd ↔ ∃ r ∈ fd, r.date = d := by
  unfold datesOf
  rw [(List.perm_insertionSort (· ≤ ·) (fd.map (fun r => r.date)).dedup).mem_iff]
  rw [List.mem_dedup]
  simp [List.mem_map, eq_comm]

/-- Claim C4: the per-date global total lists, in strictly ascending date
order, every date present in the filtered view with the sums of Confirmed,
Deaths and Recovered over the rows of that date; on the spec's Italy
example the per-date confirmed series is [100, 150] and its sum is 250. -/
theorem global_data_exact (fd : List TSRow) :
    (global_data fd).Pairwise (fun g h => g.1 < h.1) ∧
    (∀ d : Nat, (∃ r ∈ fd, r.date = d) ↔ ∃ g ∈ global_data fd, g.1 = d) ∧
    (∀ g ∈ global_data fd,
      g.2.1 = sumBy (fun r => r.confirmed) (fd.filter (fun r => r.date == g.1)) ∧
      g.2.2.1 = sumBy (fun r => r.deaths) (fd.filter (fun r => r.date == g.1)) ∧
      g.2.2.2 = sumBy (fun r => r.recovered) (fd.filter (fun r => r.date == g.1))) ∧
    global_data (filtered_data italy2 ["Europe"] [] 20200301 20200302) =
      [(20200301, 100, 5, 10), (20200302, 150, 7, 20)] ∧
    ((global_data (filtered_data italy2 ["Europe"] [] 20200301 20200302)).map
      (fun g => g.2.1)).sum = 250 := by
  refine ⟨?_, ?_, ?_, by decide, by decide⟩
  · unfold global_data
    rw [List.pairwise_map]
    exact (datesOf_pairwise_lt fd).imp (fun h => h)
  · intro d
    rw [← mem_datesOf]
    constructor
    · intro hd
      exact ⟨_, List.mem_map.mpr ⟨d, hd, rfl⟩, rfl⟩
    · rintro ⟨g, hg, rfl⟩
      rcases List.mem_map.mp hg with ⟨d0, hd0, rfl⟩
      exact hd0
  · intro g hg
    rcases List.mem_map.mp hg with ⟨d0, _, rfl⟩
    exact ⟨rfl, rfl, rfl⟩

/-! ## Claim C3 -/

/-- The `groupby('Country/Region')` keys are strictly increasing in
code-point order. -/
theorem countriesOf_pairwise_lt (fd : List TSRow) :
    (countriesOf fd).Pairwise (fun a b : String => a.data < b.data) := by
  unfold countriesOf
  have hs :=
    @List.sorted_insertionSort String (fun a b => a.data ≤ b.data) _
      ⟨fun a b => le_total a.data b.data⟩ ⟨fun _ _ _ => le_trans⟩
      (fd.map (fun r => r.country)).dedup
  have hn : (List.insertionSort (fun a b : String => a.data ≤ b.data)
      (fd.map (fun r => r.country)).dedup).Nodup :=
    ((List.perm_insertionSort (fun a b : String => a.data ≤ b.data)
        (fd.map (fun r => r.country)).dedup).nodup_iff).mpr
      (List.nodup_dedup (fd.map (fun r => r.country)))
  refine (List.Pairwise.and hs hn).imp ?_
  intro a b h
  exact lt_of_le_of_ne h.1 (fun hd => h.2 (congrArg String.mk hd))

/-- The grouped table is strictly increasing in its key. -/
theorem confGroups_pairwise (fd : List TSRow) :
    (confGroups fd).Pairwise (fun p q => p.1.data < q.1.data) := by
  unfold confGroups
  rw [List.pairwise_map]
  exact countriesOf_pairwise_lt fd

/-- Inserting into a stably descending-sorted list whose names all follow
the inserted name keeps the `RdRel` invariant. -/
theorem orderedInsert_desc_stable (x : String × Int) (l : List (String × Int))
    (hl : l.Pairwise RdRel) (hx : ∀ z ∈ l, x.1.data < z.1.data) :
    (List.orderedInsert (fun a b : String × Int => b.2 ≤ a.2) x l).Pairwise RdRel := by
  induction l with
  | nil => simp [List.orderedInsert]
  | cons y ys ih =>
    by_cases h : y.2 ≤ x.2
    · rw [List.orderedInsert, if_pos h]
      refine List.pairwise_cons.mpr ⟨?_, hl⟩
      intro z hz
      rcases List.mem_cons.mp hz with hzy | hz2
      · rw [hzy]
        rcases lt_or_eq_of_le h with hlt | heq
        · exact Or.inl hlt
        · exact Or.inr ⟨heq.symm, hx y (List.mem_cons_self y ys)⟩
      · have hyz := List.rel_of_pairwise_cons hl hz2
        rcases hyz with hlt | ⟨heq, _⟩
        · exact Or.inl (lt_of_lt_of_le hlt h)
        · have hzx : z.2 ≤ x.2 := heq ▸ h
          rcases lt_or_eq_of_le hzx with hlt2 | heq2
          · exact Or.inl hlt2
          · exact Or.inr ⟨heq2.symm, hx z (List.mem_cons_of_mem y hz2)⟩
    · rw [List.orderedInsert, if_neg h]
      have hxy : x.2 < y.2 := lt_of_not_ge h
      refine List.pairwise_cons.mpr
        ⟨?_, ih (List.pairwise_cons.mp hl).2 (fun z hz => hx z (List.mem_cons_of_mem y hz))⟩
      intro z hz
      have hz2 : z = x ∨ z ∈ ys :=
        List.mem_cons.mp ((List.perm_orderedInsert _ x ys).mem_iff.mp hz)
      rcases hz2 with hzx | hz3
      · rw [hzx]
        exact Or.inl hxy
      · exact List.rel_of_pairwise_cons hl hz3

/-- The stable descending sort of a list that is strictly increasing in its
key satisfies `RdRel` pairwise: strictly descending values, ties in key
order. -/
theorem insertionSort_desc_stable (l : List (String × Int))
    (hl : l.Pairwise (fun p q => p.1.data < q.1.data)) :
    (List.insertionSort (fun a b : String × Int => b.2 ≤ a.2) l).Pairwise RdRel := by
  induction l with
  | nil => simp [List.insertionSort]
  | cons x xs ih =>
    rw [List.insertionSort]
    apply orderedInsert_desc_stable
    · exact ih (List.pairwise_cons.mp hl).2
    · intro z hz
      exact List.rel_of_pairwise_cons hl
        ((List.perm_insertionSort (fun a b : String × Int => b.2 ≤ a.2) xs).mem_iff.mp hz)

/-- Claim C3 (amended): the top-5 list has length at most five, is a subset
of the countries present in the filtered view, and is ordered by strictly
descending per-country Confirmed maximum with ties broken by ascending
country name (the `groupby` key order) — not by original row order. -/
theorem top5_exact (fd : List TSRow) :
    (top5 fd).length ≤ 5 ∧
    (∀ c ∈ top5 fd, c ∈ fd.map (fun r => r.country)) ∧
    (top5 fd).Pairwise (fun a b =>
      mcOf fd b < mcOf fd a ∨ (mcOf fd a = mcOf fd b ∧ a.data < b.data)) := by
  refine ⟨?_, ?_, ?_⟩
  · unfold top5
    rw [List.length_map, List.length_take]
    exact inf_le_left
  · intro c hc
    unfold top5 at hc
    rcases List.mem_map.mp hc with ⟨p, hp, rfl⟩
    have hp2 : p ∈ List.insertionSort (fun a b : String × Int => b.2 ≤ a.2) (confGroups fd) :=
      List.take_subset 5 _ hp
    have hp3 : p ∈ confGroups fd :=
      (List.perm_insertionSort (fun a b : String × Int => b.2 ≤ a.2) (confGroups fd)).mem_iff.mp hp2
    rcases List.mem_map.mp hp3 with ⟨c0, hc0, rfl⟩
    have hc1 : c0 ∈ (fd.map (fun r => r.country)).dedup :=
      (List.perm_insertionSort (fun a b : String => a.data ≤ b.data)
        (fd.map (fun r => r.country)).dedup).mem_iff.mp hc0
    exact List.mem_dedup.mp hc1
  · unfold top5
    rw [List.pairwise_map]
    have h1 := insertionSort_desc_stable (confGroups fd) (confGroups_pairwise fd)
    have h2 := List.Pairwise.sublist (List.take_sublist 5
      (List.insertionSort (fun a b : String × Int => b.2 ≤ a.2) (confGroups fd))) h1
    refine List.Pairwise.imp_of_mem ?_ h2
    intro p q hp hq hpq
    have hmc : ∀ z ∈ (List.insertionSort (fun a b : String × Int => b.2 ≤ a.2)
        (confGroups fd)).take 5, z.2 = mcOf fd z.1 := by
      intro z hz
      have hz2 : z ∈ confGroups fd :=
        (List.perm_insertionSort (fun a b : String × Int => b.2 ≤ a.2)
          (confGroups fd)).mem_iff.mp (List.take_subset 5 _ hz)
      rcases List.mem_map.mp hz2 with ⟨c0, _, hzc⟩
      rw [← hzc]
    rcases hpq with hlt | ⟨heq, hname⟩
    · exact Or.inl (by rw [← hmc p hp, ← hmc q hq]; exact hlt)
    · exact Or.inr ⟨by rw [← hmc p hp, ← hmc q hq]; exact heq, hname⟩

/-- Counterexample to claim C3 as stated: in `c3fd` the original row order
lists "Bland" before "Aland" and both share the Confirmed maximum 10, yet
`top5` returns them in key order ["Aland", "Bland"], so ties are not broken
by original row order. -/
theorem top5_tiebreak_counterexample :
    c3fd.map (fun r => r.country) = ["Bland", "Aland"] ∧
    mcOf c3fd "Bland" = mcOf c3fd "Aland" ∧
    top5 c3fd = ["Aland", "Bland"] ∧
    top5 c3fd ≠ ["Bland", "Aland"] := by
  decide
